import Mathlib

/-
  Verification of the PNG-to-WebP batch converter.

  The embedding models absolute filesystem paths as lists of components
  (List String).  Python pathlib operations used by the source are
  translated faithfully:
    - Path.stem / Path.with_suffix via pyStem (last-dot splitting with
      Python's 0 < i < len - 1 index bounds),
    - Path.relative_to via component-prefix removal,
    - Path.resolve via an explicit resolver argument standing for the
      filesystem's symlink/cwd resolution state.
-/

namespace PngWebp

/-- A character is the literal dot used in extension splitting. -/
def dotChar : Char := '.'

/-- Python Path.stem on a reversed character list: drop up to the last dot
of the original string, subject to Python's bounds (the dot is neither the
first nor the last character); otherwise the whole name. -/
def pyStemRev (rcs : List Char) : List Char :=
  if rcs.dropWhile (fun c => c != dotChar) = [] ∨
      rcs.takeWhile (fun c => c != dotChar) = [] ∨
      (rcs.dropWhile (fun c => c != dotChar)).tail = [] then rcs
  else (rcs.dropWhile (fun c => c != dotChar)).tail

/-- Python Path.stem: the final path component without its last suffix. -/
def pyStem (s : String) : String :=
  String.mk ((pyStemRev s.data.reverse).reverse)

/-- A Python exception crossing the embedded error channel. -/
structure PyExn where
  msg : String
deriving DecidableEq, Repr

instance exceptDecEq {ε α : Type} [DecidableEq ε] [DecidableEq α] :
    DecidableEq (Except ε α) := fun x y =>
  match x, y with
  | Except.ok a, Except.ok b =>
    if h : a = b then isTrue (by rw [h]) else isFalse (by simp [h])
  | Except.error a, Except.error b =>
    if h : a = b then isTrue (by rw [h]) else isFalse (by simp [h])
  | Except.ok _, Except.error _ => isFalse (by simp)
  | Except.error _, Except.ok _ => isFalse (by simp)

/-- The AttributeError raised when the fallback branch of transform_path
calls .stem on the str returned by Path.name. -/
def attributeErrorStem : PyExn :=
  ⟨"AttributeError: str object has no attribute stem"⟩

/-- The ValueError raised by with_suffix when the name is empty. -/
def valueErrorEmptyName : PyExn := ⟨"ValueError: empty name"⟩

/-- Path.relative_to: strip source_root as a component prefix, ValueError
(encoded as none) otherwise. -/
def relativeTo (sp sr : List String) : Option (List String) :=
  if sr.isPrefixOf sp then some (sp.drop sr.length) else none

/-- transform_path from src/main.py.  The res argument stands for
Path.resolve's dependence on filesystem state: it is applied to all three
paths first, exactly as the three .resolve() calls are.  The except
ValueError branch assigns the str filename and then evaluates .stem on it,
which raises AttributeError in Python; the embedding returns that error. -/
def transform_path (res : List String → List String)
    (source_path source_root dest_root : List String) :
    Except PyExn (List String) :=
  let sp := res source_path
  let sr := res source_root
  let dr := res dest_root
  match relativeTo sp sr with
  | none => Except.error attributeErrorStem
  | some rel =>
    match rel.getLast? with
    | none => Except.error valueErrorEmptyName
    | some name =>
      let stem := pyStem name
      if stem = "" then Except.error valueErrorEmptyName
      else
        let newName := pyStem stem ++ ".webp"
        let destRel := if rel.dropLast = [] then [newName] else rel.dropLast ++ [newName]
        Except.ok (dr ++ destRel)

/- Helper lemmas about pyStem. -/

theorem takeWhile_append_dot (a b : List Char) (h : dotChar ∉ a) :
    (a ++ dotChar :: b).takeWhile (fun c => c != dotChar) = a := by
  induction a with
  | nil => simp [List.takeWhile, dotChar]
  | cons x t ih =>
    have hx : x ≠ dotChar := fun e => h (e ▸ List.mem_cons_self x t)
    have ht : dotChar ∉ t := fun m => h (List.mem_cons_of_mem x m)
    simp [List.takeWhile_cons, hx, ih ht]

theorem dropWhile_append_dot (a b : List Char) (h : dotChar ∉ a) :
    (a ++ dotChar :: b).dropWhile (fun c => c != dotChar) = dotChar :: b := by
  induction a with
  | nil => simp [List.dropWhile]
  | cons x t ih =>
    have hx : x ≠ dotChar := fun e => h (e ▸ List.mem_cons_self x t)
    have ht : dotChar ∉ t := fun m => h (List.mem_cons_of_mem x m)
    simp [List.dropWhile_cons, hx, ih ht]

theorem dropWhile_no_dot (a : List Char) (h : dotChar ∉ a) :
    a.dropWhile (fun c => c != dotChar) = [] := by
  induction a with
  | nil => rfl
  | cons x t ih =>
    have hx : x ≠ dotChar := fun e => h (e ▸ List.mem_cons_self x t)
    have ht : dotChar ∉ t := fun m => h (List.mem_cons_of_mem x m)
    simp [List.dropWhile_cons, hx, ih ht]

theorem stringDataAppend (s t : String) : (s ++ t).data = s.data ++ t.data := rfl

theorem stringMkData (s : String) : String.mk s.data = s := rfl

/-- A name with no dot is its own stem. -/
theorem pyStem_no_dot (s : String) (h : dotChar ∉ s.data) : pyStem s = s := by
  have hrev : dotChar ∉ s.data.reverse := by simpa using h
  unfold pyStem pyStemRev
  rw [dropWhile_no_dot _ hrev]
  simp

/-- A name of the form base.ext with dot-free nonempty base and ext has
stem base (Python's bounds 0 < i < len - 1 hold). -/
theorem pyStem_base_ext (base ext : String)
    (hb : base.data ≠ []) (he : ext.data ≠ [])
    (hed : dotChar ∉ ext.data) :
    pyStem (base ++ "." ++ ext) = base := by
  have hdot : ("." : String).data = [dotChar] := rfl
  have hdata : (base ++ "." ++ ext).data = base.data ++ dotChar :: ext.data := by
    rw [stringDataAppend, stringDataAppend, hdot, List.append_assoc]
    rfl
  have hrevd : dotChar ∉ ext.data.reverse := by simpa using hed
  unfold pyStem
  rw [hdata]
  have hrev : (base.data ++ dotChar :: ext.data).reverse
      = ext.data.reverse ++ dotChar :: base.data.reverse := by
    rw [List.reverse_append, List.reverse_cons, List.append_assoc]
    simp
  rw [hrev]
  unfold pyStemRev
  rw [dropWhile_append_dot _ _ hrevd, takeWhile_append_dot _ _ hrevd]
  rw [if_neg (by simp [he, hb])]
  simp [stringMkData]

/-- transform_path on a file under the source root, for a resolver that is
the identity on the given paths: the relative component list is the part
after the root. -/
theorem relativeTo_append (sr t : List String) : relativeTo (sr ++ t) sr = some t := by
  unfold relativeTo
  rw [if_pos, List.drop_left]
  exact List.isPrefixOf_iff_prefix.mpr (List.prefix_append sr t)

/-- C3: the spec says a source path not under SourceRoot maps, without
raising, to DestRoot joined with just the filename.  The code instead
raises AttributeError: the fallback branch stores the str returned by
Path.name in relative_path and then evaluates relative_path.stem, and str
has no stem attribute.  This theorem evaluates the embedded code at such
an input. -/
theorem transform_path_outside_root_raises :
    transform_path id ["other", "file.png"] ["src"] ["dst"]
      = Except.error attributeErrorStem := by decide

/-- C4 counterexample: the code does not merely replace the filename's
extension.  For the multi-suffix name a.tar.png under /src it yields
/dst/a.webp, not the /dst/a.tar.webp that extension replacement would
give: stem is taken twice (once via Path.stem, once inside with_suffix). -/
theorem transform_path_multidot_counterexample :
    transform_path id ["src", "a.tar.png"] ["src"] ["dst"]
        = Except.ok ["dst", "a.webp"] ∧
      (["dst", "a.webp"] : List String) ≠ ["dst", "a.tar.webp"] := by
  constructor
  · decide
  · decide

/-- C4 (amended): for every file under SourceRoot whose filename is
base.ext with dot-free nonempty base and extension, the Path Mapper
replaces the extension with lowercase .webp and re-joins the full relative
subdirectory path onto DestRoot; in particular /src/a/b/image.PNG maps to
/dst/a/b/image.webp.  (Multi-extension names lose their second-to-last
suffix as well, per the counterexample.) -/
theorem transform_path_under_root (sr dr sub : List String) (base ext : String)
    (hb : base.data ≠ []) (he : ext.data ≠ [])
    (hbd : dotChar ∉ base.data) (hed : dotChar ∉ ext.data) :
    transform_path id (sr ++ (sub ++ [base ++ "." ++ ext])) sr dr
        = Except.ok (dr ++ (sub ++ [base ++ ".webp"])) ∧
      transform_path id ["src", "a", "b", "image.PNG"] ["src"] ["dst"]
        = Except.ok ["dst", "a", "b", "image.webp"] := by
  constructor
  · have hstem : pyStem (base ++ "." ++ ext) = base := pyStem_base_ext base ext hb he hed
    have hstem2 : pyStem base = base := pyStem_no_dot base hbd
    have hbne : base ≠ "" := by
      intro h
      exact hb (by rw [h])
    unfold transform_path
    simp only [id_eq, relativeTo_append, List.getLast?_concat, List.dropLast_concat,
      hstem, hstem2, if_neg hbne]
    cases sub with
    | nil => rfl
    | cons x t => simp
  · decide

/-- C5 counterexample: the mapper calls Path.resolve on all three paths,
and resolve reads filesystem state (symlinks, cwd).  With DestRoot /dst a
symlink to /dstReal, the same three textual arguments give different
destinations under the two filesystem states. -/
def symlinkRes (p : List String) : List String :=
  if p = ["dst"] then ["dstReal"] else p

theorem transform_path_fs_dependent :
    transform_path id ["src", "a.png"] ["src"] ["dst"]
      ≠ transform_path symlinkRes ["src", "a.png"] ["src"] ["dst"] := by decide

/-- C5 (amended): the destination depends only on the resolved forms of
the three paths — two calls under filesystem states that resolve the three
paths identically return identical destinations; beyond resolution, no
filesystem state enters. -/
theorem transform_path_depends_only_on_resolution
    (res res2 : List String → List String) (sp sr dr : List String)
    (h1 : res sp = res2 sp) (h2 : res sr = res2 sr) (h3 : res dr = res2 dr) :
    transform_path res sp sr dr = transform_path res2 sp sr dr := by
  unfold transform_path
  rw [h1, h2, h3]

/-- C5 witness: two distinct resolvers agreeing on the three concrete
paths give the same destination. -/
theorem transform_path_depends_only_on_resolution_witness :
    transform_path id ["s", "x.png"] ["s"] ["d"]
      = transform_path symlinkRes ["s", "x.png"] ["s"] ["d"] :=
  transform_path_depends_only_on_resolution id symlinkRes
    ["s", "x.png"] ["s"] ["d"] (by decide) (by decide) (by decide)

/-- C4 witness: the amended statement at concrete roots, subdirectory and
filename photo.PNG. -/
theorem transform_path_under_root_witness :
    transform_path id (["root"] ++ (["a"] ++ ["photo" ++ "." ++ "PNG"])) ["root"] ["out"]
        = Except.ok (["out"] ++ (["a"] ++ ["photo" ++ ".webp"])) ∧
      transform_path id ["src", "a", "b", "image.PNG"] ["src"] ["dst"]
        = Except.ok ["dst", "a", "b", "image.webp"] :=
  transform_path_under_root ["root"] ["out"] ["a"] "photo" "PNG"
    (by decide) (by decide) (by decide) (by decide)

/-
  Filesystem world and the external collaborators (codec, filesystem,
  permissions).  Entries are (path, isFile) pairs; the three fault sets
  list the paths at which the corresponding external call raises, so every
  combination of collaborator faults is a choice of world.
-/

/-- Filesystem entries: (absolute path, whether it is a regular file). -/
abbrev Entries := List (List String × Bool)

/-- Path.exists: some entry has this path. -/
def pyExists (es : Entries) (p : List String) : Bool :=
  es.any (fun e => e.1 == p)

/-- Path.is_file: some entry has this path and is a regular file. -/
def pyIsFile (es : Entries) (p : List String) : Bool :=
  es.any (fun e => e.1 == p && e.2)

/-- The abstract machine state: the filesystem plus the fault behaviour of
the external collaborators. -/
structure World where
  entries : Entries
  mkdirFails : List (List String)
  openFails : List (List String)
  saveFails : List (List String)
deriving DecidableEq, Repr

/-- WebP quality constant from src/main.py. -/
def WEBP_QUALITY : Nat := 85

/-- All nonempty component prefixes of a path: the directories mkdir
creates with parents=True. -/
def prefixesOf (p : List String) : List (List String) :=
  (List.range p.length).map (fun k => p.take (k + 1))

def permissionError : PyExn := ⟨"PermissionError"⟩

def codecOpenError : PyExn := ⟨"UnidentifiedImageError"⟩

def codecSaveError : PyExn := ⟨"OSError: encoder error"⟩

/-- dest.parent.mkdir(parents=True, exist_ok=True): raises on a faulted
path, otherwise creates every missing ancestor directory. -/
def mkdirParents (w : World) (d : List String) : Except (PyExn × World) World :=
  if d ∈ w.mkdirFails then Except.error (permissionError, w)
  else
    let missing := ((prefixesOf d).filter (fun q => !(pyExists w.entries q))).map
      (fun q => (q, false))
    Except.ok { w with entries := w.entries ++ missing }

/-- Image.open: decodes the source, raising on a faulted path. -/
def imageOpen (w : World) (s : List String) : Except (PyExn × World) Unit :=
  if s ∈ w.openFails then Except.error (codecOpenError, w) else Except.ok ()

/-- img.save(dest, WEBP, quality): raises on a faulted path, otherwise
writes the destination file. -/
def imageSave (w : World) (d : List String) (_quality : Nat) :
    Except (PyExn × World) World :=
  if d ∈ w.saveFails then Except.error (codecSaveError, w)
  else
    let es := if pyExists w.entries d then w.entries else w.entries ++ [(d, true)]
    Except.ok { w with entries := es }

/-- The body of convert_png_to_webp's try block, src/main.py lines
422-437: source existence check, mkdir of the destination parent, decode,
encode. -/
def convertBody (w : World) (source dest : List String) :
    Except (PyExn × World) (Bool × World) :=
  if !(pyExists w.entries source) || !(pyIsFile w.entries source) then
    Except.ok (false, w)
  else
    match mkdirParents w dest.dropLast with
    | Except.error e => Except.error e
    | Except.ok w1 =>
      match imageOpen w1 source with
      | Except.error e => Except.error e
      | Except.ok _ =>
        match imageSave w1 dest WEBP_QUALITY with
        | Except.error e => Except.error e
        | Except.ok w2 => Except.ok (true, w2)

/-- convert_png_to_webp from src/main.py: the broad except converts any
exception of the body into a False return. -/
def convert_png_to_webp (w : World) (source dest : List String) :
    Except (PyExn × World) (Bool × World) :=
  match convertBody w source dest with
  | Except.ok r => Except.ok r
  | Except.error (_, we) => Except.ok (false, we)

/-- C7: the Format Converter never propagates an exception — for every
world (hence every combination of codec, filesystem and permission
faults) it returns a boolean — and a missing or non-regular-file source
yields the boolean failure False. -/
theorem convert_never_raises (w : World) (s d : List String) :
    (∃ r, convert_png_to_webp w s d = Except.ok r) ∧
      (pyExists w.entries s = false ∨ pyIsFile w.entries s = false →
        ∃ we, convert_png_to_webp w s d = Except.ok (false, we)) := by
  constructor
  · unfold convert_png_to_webp
    cases h : convertBody w s d with
    | ok r => exact ⟨r, rfl⟩
    | error e =>
      obtain ⟨e1, e2⟩ := e
      exact ⟨(false, e2), rfl⟩
  · intro h
    refine ⟨w, ?_⟩
    have hc : (!(pyExists w.entries s) || !(pyIsFile w.entries s)) = true := by
      rcases h with h | h <;> simp [h]
    unfold convert_png_to_webp convertBody
    rw [if_pos hc]

/-- C7 witness: a world whose only entry is the destination root; the
missing source gives a boolean failure, not an exception. -/
theorem convert_never_raises_witness :
    ∃ we, convert_png_to_webp ⟨[(["dst"], false)], [], [], []⟩
      ["src", "a.png"] ["dst", "a.webp"] = Except.ok (false, we) :=
  (convert_never_raises ⟨[(["dst"], false)], [], [], []⟩
    ["src", "a.png"] ["dst", "a.webp"]).2 (Or.inl (by decide))

/-- C10: when the source does not exist or is not a regular file, the
converter returns False with the world unchanged — the existence check
precedes the mkdir call, so no destination parent directory is created. -/
theorem convert_missing_source_leaves_world (w : World) (s d : List String)
    (h : pyExists w.entries s = false ∨ pyIsFile w.entries s = false) :
    convert_png_to_webp w s d = Except.ok (false, w) := by
  have hc : (!(pyExists w.entries s) || !(pyIsFile w.entries s)) = true := by
    rcases h with h | h <;> simp [h]
  unfold convert_png_to_webp convertBody
  rw [if_pos hc]

/-- C10 witness: a world holding only a directory entry for the source
path (so is_file is false) is returned untouched. -/
theorem convert_missing_source_leaves_world_witness :
    convert_png_to_webp ⟨[(["srcdir"], false)], [], [], []⟩
        ["srcdir"] ["dst", "x.webp"]
      = Except.ok (false, ⟨[(["srcdir"], false)], [], [], []⟩) :=
  convert_missing_source_leaves_world ⟨[(["srcdir"], false)], [], [], []⟩
    ["srcdir"] ["dst", "x.webp"] (Or.inr (by decide))

/-
  File Discoverer: find_png_files from src/main.py.  rglob("*.png") is
  modelled as collecting every entry strictly below the root whose final
  component matches the pattern; the ci flag selects the glob flavour
  (false: case-sensitive matching as on POSIX, true: case-insensitive
  matching as on Windows).  sorted() on Path objects compares the full
  path string.
-/

/-- Path.name: the final component ("" for a bare root). -/
def nameOf (p : List String) : String := (p.getLast?).getD ""

/-- ASCII lower-casing of one character. -/
def asciiLower (c : Char) : Char :=
  if 65 ≤ c.toNat ∧ c.toNat ≤ 90 then Char.ofNat (c.toNat + 32) else c

/-- str.lower(), ASCII range. -/
def strLower (s : String) : String := String.mk (s.data.map asciiLower)

/-- str.endswith(suf). -/
def strEndsWith (s suf : String) : Bool := suf.data.isSuffixOf s.data

/-- Whether a name matches the glob pattern *suf under the given matching
flavour. -/
def globMatch (ci : Bool) (suf name : String) : Bool :=
  if ci then strEndsWith (strLower name) (strLower suf) else strEndsWith name suf

/-- source_dir.is_dir(). -/
def isDirIn (es : Entries) (p : List String) : Bool :=
  es.any (fun e => e.1 == p && !e.2)

/-- root.rglob(*suf) followed by the is_file filter of the loop body. -/
def rglobFiles (ci : Bool) (es : Entries) (root : List String) (suf : String) :
    List (List String) :=
  ((es.filter (fun e => root.isPrefixOf e.1 && decide (root.length < e.1.length) &&
      globMatch ci suf (nameOf e.1))).map Prod.fst).filter (fun p => pyIsFile es p)

/-- The second loop of find_png_files: append each .PNG match not already
collected. -/
def dedupInto (acc l : List (List String)) : List (List String) :=
  l.foldl (fun a p => if p ∈ a then a else a ++ [p]) acc

/-- Full path string of a component list, as str(Path). -/
def pathStr (p : List String) : String := "/" ++ String.intercalate "/" p

/-- Path ordering: lexicographic on the full path string. -/
def pathLe (a b : List String) : Prop := pathStr a ≤ pathStr b

instance : DecidableRel pathLe := fun a b =>
  inferInstanceAs (Decidable (pathStr a ≤ pathStr b))

instance : IsTotal (List String) pathLe := ⟨fun a b => le_total (pathStr a) (pathStr b)⟩

instance : IsTrans (List String) pathLe :=
  ⟨fun _ _ _ h1 h2 => le_trans h1 h2⟩

/-- find_png_files from src/main.py: empty unless the root exists and is
a directory; otherwise the .png pass, the deduplicating .PNG pass, and a
final sort. -/
def find_png_files (ci : Bool) (es : Entries) (root : List String) :
    List (List String) :=
  if !(pyExists es root) || !(isDirIn es root) then []
  else
    List.insertionSort pathLe
      (dedupInto (rglobFiles ci es root ".png") (rglobFiles ci es root ".PNG"))

theorem mem_dedupInto (l : List (List String)) :
    ∀ (acc : List (List String)) (p : List String),
      p ∈ dedupInto acc l ↔ p ∈ acc ∨ p ∈ l := by
  induction l with
  | nil => intro acc p; simp [dedupInto]
  | cons x t ih =>
    intro acc p
    show p ∈ dedupInto (if x ∈ acc then acc else acc ++ [x]) t ↔ _
    rw [ih]
    by_cases hx : x ∈ acc
    · simp only [if_pos hx, List.mem_cons]
      constructor
      · rintro (h | h)
        · exact Or.inl h
        · exact Or.inr (Or.inr h)
      · rintro (h | h | h)
        · exact Or.inl h
        · exact Or.inl (h ▸ hx)
        · exact Or.inr h
    · simp only [if_neg hx, List.mem_append, List.mem_singleton, List.mem_cons]
      tauto

theorem nodup_dedupInto (l : List (List String)) :
    ∀ acc : List (List String), acc.Nodup → (dedupInto acc l).Nodup := by
  induction l with
  | nil => intro acc h; exact h
  | cons x t ih =>
    intro acc h
    show (dedupInto (if x ∈ acc then acc else acc ++ [x]) t).Nodup
    by_cases hx : x ∈ acc
    · rw [if_pos hx]; exact ih acc h
    · rw [if_neg hx]
      refine ih _ ?_
      rw [← List.concat_eq_append]
      exact h.concat hx

theorem mem_rglobFiles (ci : Bool) (es : Entries) (root : List String)
    (suf : String) (p : List String) :
    p ∈ rglobFiles ci es root suf ↔
      pyIsFile es p = true ∧ root.isPrefixOf p = true ∧
        root.length < p.length ∧ globMatch ci suf (nameOf p) = true := by
  unfold rglobFiles
  rw [List.mem_filter, List.mem_map]
  constructor
  · rintro ⟨⟨e, he, rfl⟩, hfile⟩
    rw [List.mem_filter] at he
    obtain ⟨-, hcond⟩ := he
    simp only [Bool.and_eq_true, decide_eq_true_eq] at hcond
    exact ⟨hfile, hcond.1.1, hcond.1.2, hcond.2⟩
  · rintro ⟨hfile, hpre, hlen, hmatch⟩
    refine ⟨⟨(p, true), ?_, rfl⟩, hfile⟩
    rw [List.mem_filter]
    have hmem : (p, true) ∈ es := by
      unfold pyIsFile at hfile
      rw [List.any_eq_true] at hfile
      obtain ⟨e, he, hcond⟩ := hfile
      simp only [Bool.and_eq_true, beq_iff_eq] at hcond
      obtain ⟨hp, hb⟩ := hcond
      have : e = (p, true) := by
        obtain ⟨a, b⟩ := e
        simp only at hp hb
        rw [hp, hb]
      exact this ▸ he
    refine ⟨hmem, ?_⟩
    simp only [Bool.and_eq_true, decide_eq_true_eq]
    exact ⟨⟨hpre, hlen⟩, hmatch⟩

theorem nodup_rglobFiles (ci : Bool) (es : Entries) (root : List String)
    (suf : String) (h : (es.map Prod.fst).Nodup) :
    (rglobFiles ci es root suf).Nodup := by
  unfold rglobFiles
  exact List.Nodup.filter _ (((List.filter_sublist es).map Prod.fst).nodup h)

/-- C6 counterexample: under case-sensitive glob matching a regular file
photo.Png beneath an existing root has an extension equal to .png up to
case, yet the Discoverer returns the empty list — the code only glob-
matches the two spellings *.png and *.PNG. -/
theorem find_png_files_mixed_case_counterexample :
    find_png_files false [(["src"], false), (["src", "photo.Png"], true)] ["src"] = [] ∧
      pyIsFile [(["src"], false), (["src", "photo.Png"], true)] ["src", "photo.Png"] = true ∧
      strEndsWith (strLower (nameOf ["src", "photo.Png"])) ".png" = true := by
  refine ⟨?_, by decide, by decide⟩
  decide

/-- C6 (amended): for a filesystem whose entry paths are distinct, the
Discoverer returns a duplicate-free list, sorted lexicographically by full
path string, containing exactly the regular files strictly below an
existing root directory whose name glob-matches *.png or *.PNG under the
filesystem's matching flavour (so mixed-case spellings such as .Png are
found only when matching is case-insensitive, and a file matched by both
patterns on a case-insensitive filesystem appears once). -/
theorem find_png_files_spec (ci : Bool) (es : Entries) (root : List String)
    (hnd : (es.map Prod.fst).Nodup) :
    (find_png_files ci es root).Nodup ∧
      List.Sorted pathLe (find_png_files ci es root) ∧
      (∀ p, p ∈ find_png_files ci es root ↔
        pyExists es root = true ∧ isDirIn es root = true ∧
          pyIsFile es p = true ∧ root.isPrefixOf p = true ∧
          root.length < p.length ∧
          (globMatch ci ".png" (nameOf p) = true ∨
            globMatch ci ".PNG" (nameOf p) = true)) := by
  unfold find_png_files
  by_cases hroot : (!(pyExists es root) || !(isDirIn es root)) = true
  · rw [if_pos hroot]
    refine ⟨List.nodup_nil, List.sorted_nil, fun p => ?_⟩
    simp only [List.not_mem_nil, false_iff]
    rintro ⟨h1, h2, -⟩
    rw [h1, h2] at hroot
    simp at hroot
  · rw [if_neg hroot]
    have hex : pyExists es root = true ∧ isDirIn es root = true := by
      constructor
      · cases hP : pyExists es root
        · exact absurd (by rw [hP]; rfl) hroot
        · rfl
      · cases hD : isDirIn es root
        · exact absurd (by rw [hD]; simp) hroot
        · rfl
    have hdd : (dedupInto (rglobFiles ci es root ".png")
        (rglobFiles ci es root ".PNG")).Nodup :=
      nodup_dedupInto _ _ (nodup_rglobFiles ci es root ".png" hnd)
    refine ⟨?_, List.sorted_insertionSort pathLe _, fun p => ?_⟩
    · exact ((List.perm_insertionSort pathLe _).nodup_iff).mpr hdd
    · rw [List.mem_insertionSort, mem_dedupInto, mem_rglobFiles, mem_rglobFiles]
      constructor
      · rintro (⟨h1, h2, h3, h4⟩ | ⟨h1, h2, h3, h4⟩)
        · exact ⟨hex.1, hex.2, h1, h2, h3, Or.inl h4⟩
        · exact ⟨hex.1, hex.2, h1, h2, h3, Or.inr h4⟩
      · rintro ⟨-, -, h1, h2, h3, h4 | h4⟩
        · exact Or.inl ⟨h1, h2, h3, h4⟩
        · exact Or.inr ⟨h1, h2, h3, h4⟩

/-- C6 witness: the amended statement evaluated on a small filesystem
holding lower.png, UPPER.PNG and a non-matching note.txt beneath the
root. -/
theorem find_png_files_spec_witness :
    (find_png_files false [(["r"], false), (["r", "lower.png"], true),
        (["r", "UPPER.PNG"], true), (["r", "note.txt"], true)] ["r"]).Nodup ∧
      List.Sorted pathLe (find_png_files false [(["r"], false), (["r", "lower.png"], true),
        (["r", "UPPER.PNG"], true), (["r", "note.txt"], true)] ["r"]) ∧
      (∀ p, p ∈ find_png_files false [(["r"], false), (["r", "lower.png"], true),
          (["r", "UPPER.PNG"], true), (["r", "note.txt"], true)] ["r"] ↔
        pyExists [(["r"], false), (["r", "lower.png"], true),
            (["r", "UPPER.PNG"], true), (["r", "note.txt"], true)] ["r"] = true ∧
          isDirIn [(["r"], false), (["r", "lower.png"], true),
            (["r", "UPPER.PNG"], true), (["r", "note.txt"], true)] ["r"] = true ∧
          pyIsFile [(["r"], false), (["r", "lower.png"], true),
            (["r", "UPPER.PNG"], true), (["r", "note.txt"], true)] p = true ∧
          (["r"] : List String).isPrefixOf p = true ∧
          (["r"] : List String).length < p.length ∧
          (globMatch false ".png" (nameOf p) = true ∨
            globMatch false ".PNG" (nameOf p) = true)) :=
  find_png_files_spec false [(["r"], false), (["r", "lower.png"], true),
    (["r", "UPPER.PNG"], true), (["r", "note.txt"], true)] ["r"] (by decide)

/-
  Batch Worker: run_conversion_worker from src/ui/conversion_utils.py
  (the same loop as _convert_worker in src/main.py up to log wording).
  Messages are the tagged variants crossing the worker-to-UI queue.  The
  faults argument lists the 1-based iteration indices at which an
  unexpected batch-level exception fires at the loop head (outside the
  per-file try, as the thread-log print there can); the loop then aborts,
  the remaining files are folded into the error count, and the finally
  block still emits Complete.
-/

/-- A message posted on the worker-to-UI queue. -/
inductive Msg where
  | log (text : String)
  | progress (current total : Nat)
  | complete (successCount errorCount : Nat)
deriving DecidableEq, Repr

def Msg.isComplete : Msg → Bool
  | Msg.complete _ _ => true
  | _ => false

def Msg.isProgress : Msg → Bool
  | Msg.progress _ _ => true
  | _ => false

def Msg.isLog : Msg → Bool
  | Msg.log _ => true
  | _ => false

def okLine (i total : Nat) (name : String) : String :=
  "[" ++ toString i ++ "/" ++ toString total ++ "] ✓ " ++ name

def failLine (i total : Nat) (name : String) : String :=
  "[" ++ toString i ++ "/" ++ toString total ++ "] ✗ Failed: " ++ name

def errLine (i total : Nat) (name msg : String) : String :=
  "[" ++ toString i ++ "/" ++ toString total ++ "] ✗ Error: " ++ name ++ " - " ++ msg

def fatalLine (msg : String) : String :=
  "Fatal error in conversion thread: " ++ msg

def unexpectedBatchFault : PyExn := ⟨"unexpected fault"⟩

/-- The outcome of the worker: the emitted messages in order, the two
counters, and the final world. -/
structure LoopOut where
  msgs : List Msg
  success : Nat
  error : Nat
  world : World
deriving DecidableEq, Repr

/-- The body of the per-file try block: transform the path and attempt
the conversion.  A per-file exception (the transform raising, or a
hypothetical converter exception — the inner except catches both) counts
as a failure.  Returns the log message, whether the file succeeded, and
the updated world. -/
def workerStep (src dst : List String) (w : World) (f : List String)
    (i total : Nat) : Msg × Bool × World :=
  match transform_path id f src dst with
  | Except.error e => (Msg.log (errLine i total (nameOf f) e.msg), false, w)
  | Except.ok destP =>
    match convert_png_to_webp w f destP with
    | Except.ok (true, w2) => (Msg.log (okLine i total (nameOf f)), true, w2)
    | Except.ok (false, w2) => (Msg.log (failLine i total (nameOf f)), false, w2)
    | Except.error (e, w2) => (Msg.log (errLine i total (nameOf f) e.msg), false, w2)

/-- The for-loop of run_conversion_worker: i is the 1-based index,
total the original file-list length.  Per file: Progress first, then the
per-file step; a batch fault aborts the loop, logs the fatal line and
folds the unprocessed files into the error count. -/
def workerLoop (faults : List Nat) (src dst : List String) (total : Nat) :
    List (List String) → Nat → Nat → Nat → World → List Msg → LoopOut
  | [], _, succ, err, w, acc => ⟨acc, succ, err, w⟩
  | f :: rest, i, succ, err, w, acc =>
    if i ∈ faults then
      ⟨acc ++ [Msg.log (fatalLine unexpectedBatchFault.msg)],
        succ, err + (total - succ - err), w⟩
    else
      let s := workerStep src dst w f i total
      workerLoop faults src dst total rest (i + 1)
        (if s.2.1 then succ + 1 else succ) (if s.2.1 then err else err + 1)
        s.2.2 (acc ++ [Msg.progress i total, s.1])

/-- run_conversion_worker: run the loop from zeroed counters, then the
finally block emits the single Complete message. -/
def run_conversion_worker (w : World) (faults : List Nat)
    (src dst : List String) (files : List (List String)) : LoopOut :=
  let out := workerLoop faults src dst files.length files 1 0 0 w []
  ⟨out.msgs ++ [Msg.complete out.success out.error], out.success, out.error, out.world⟩

/-- The loop keeps successCount + errorCount + remaining = total, also
across the batch-fault fold. -/
theorem workerLoop_counts (faults : List Nat) (src dst : List String) (total : Nat) :
    ∀ (files : List (List String)) (i succ err : Nat) (w : World) (acc : List Msg),
      succ + err + files.length = total →
      (workerLoop faults src dst total files i succ err w acc).success +
        (workerLoop faults src dst total files i succ err w acc).error = total := by
  intro files
  induction files with
  | nil =>
    intro i succ err w acc h
    simpa [workerLoop] using h
  | cons f rest ih =>
    intro i succ err w acc h
    rw [List.length_cons] at h
    by_cases hf : i ∈ faults
    · simp only [workerLoop, if_pos hf]
      omega
    · simp only [workerLoop, if_neg hf]
      by_cases hs : (workerStep src dst w f i total).2.1 = true
      · rw [if_pos hs, if_pos hs]
        exact ih (i + 1) (succ + 1) err _ _ (by omega)
      · rw [if_neg hs, if_neg hs]
        exact ih (i + 1) succ (err + 1) _ _ (by omega)

/-- The loop emits no Complete message beyond those already accumulated. -/
theorem workerLoop_no_complete (faults : List Nat) (src dst : List String) (total : Nat) :
    ∀ (files : List (List String)) (i succ err : Nat) (w : World) (acc : List Msg),
      (workerLoop faults src dst total files i succ err w acc).msgs.filter Msg.isComplete
        = acc.filter Msg.isComplete := by
  intro files
  induction files with
  | nil => intro i succ err w acc; rfl
  | cons f rest ih =>
    intro i succ err w acc
    by_cases hf : i ∈ faults
    · simp [workerLoop, if_pos hf, List.filter_append, Msg.isComplete]
    · simp only [workerLoop, if_neg hf]
      rw [ih]
      rw [List.filter_append]
      have hlog : (workerStep src dst w f i total).1.isLog = true := by
        unfold workerStep
        split
        · rfl
        · split <;> rfl
      have : [Msg.progress i total, (workerStep src dst w f i total).1].filter
          Msg.isComplete = [] := by
        cases hm : (workerStep src dst w f i total).1 <;>
          simp_all [Msg.isLog, Msg.isComplete, Msg.isProgress, List.filter]
      rw [this, List.append_nil]

/-- C1: for every world (hence every combination of per-file successes,
boolean failures and thrown exceptions) and every injected batch-level
fault, the counters carried by the final Complete message sum to the
original file-list length. -/
theorem worker_counts_sum (w : World) (faults : List Nat) (src dst : List String)
    (files : List (List String)) :
    (run_conversion_worker w faults src dst files).success +
        (run_conversion_worker w faults src dst files).error = files.length ∧
      (run_conversion_worker w faults src dst files).msgs.getLast?
        = some (Msg.complete (run_conversion_worker w faults src dst files).success
            (run_conversion_worker w faults src dst files).error) := by
  constructor
  · exact workerLoop_counts faults src dst files.length files 1 0 0 w [] (by simp)
  · unfold run_conversion_worker
    simp [List.getLast?_concat]

/-- C2: the worker emits exactly one Complete message per batch — it
carries the final counters — and it is the last message emitted. -/
theorem worker_exactly_one_complete (w : World) (faults : List Nat)
    (src dst : List String) (files : List (List String)) :
    (run_conversion_worker w faults src dst files).msgs.filter Msg.isComplete
        = [Msg.complete (run_conversion_worker w faults src dst files).success
            (run_conversion_worker w faults src dst files).error] ∧
      (run_conversion_worker w faults src dst files).msgs.getLast?
        = some (Msg.complete (run_conversion_worker w faults src dst files).success
            (run_conversion_worker w faults src dst files).error) := by
  constructor
  · unfold run_conversion_worker
    rw [List.filter_append, workerLoop_no_complete]
    simp [Msg.isComplete]
  · unfold run_conversion_worker
    simp [List.getLast?_concat]

/-- Spec-side trace shape for a fault-free batch: file i contributes the
block [Progress(i, total), its log line], for i counting up from the
given start. -/
def progressBlocks (total : Nat) : Nat → List Msg → List Msg
  | _, [] => []
  | i, l :: ls => Msg.progress i total :: l :: progressBlocks total (i + 1) ls

theorem workerStep_isLog (src dst : List String) (w : World) (f : List String)
    (i total : Nat) : (workerStep src dst w f i total).1.isLog = true := by
  unfold workerStep
  split
  · rfl
  · split <;> rfl

/-- Without batch faults the loop appends exactly one Progress-then-log
block per file, Progress first. -/
theorem workerLoop_nofault_shape (src dst : List String) (total : Nat) :
    ∀ (files : List (List String)) (i succ err : Nat) (w : World) (acc : List Msg),
      ∃ logs : List Msg, logs.length = files.length ∧
        (∀ m ∈ logs, m.isLog = true) ∧
        (workerLoop [] src dst total files i succ err w acc).msgs
          = acc ++ progressBlocks total i logs := by
  intro files
  induction files with
  | nil =>
    intro i succ err w acc
    refine ⟨[], rfl, ?_, ?_⟩
    · intro m hm
      cases hm
    · simp [workerLoop, progressBlocks]
  | cons f rest ih =>
    intro i succ err w acc
    have hf : i ∉ ([] : List Nat) := List.not_mem_nil i
    obtain ⟨logs, hlen, hlog, hmsgs⟩ := ih (i + 1)
      (if (workerStep src dst w f i total).2.1 then succ + 1 else succ)
      (if (workerStep src dst w f i total).2.1 then err else err + 1)
      (workerStep src dst w f i total).2.2
      (acc ++ [Msg.progress i total, (workerStep src dst w f i total).1])
    refine ⟨(workerStep src dst w f i total).1 :: logs, by simp [hlen], ?_, ?_⟩
    · intro m hm
      rcases List.mem_cons.mp hm with h | h
      · exact h ▸ workerStep_isLog src dst w f i total
      · exact hlog m h
    · show (workerLoop [] src dst total (f :: rest) i succ err w acc).msgs = _
      simp only [workerLoop, if_neg hf]
      rw [hmsgs, progressBlocks]
      simp

/-- Filtering a block list for Progress messages yields exactly the
Progress messages with consecutive indices. -/
theorem progressBlocks_filter (total : Nat) :
    ∀ (logs : List Msg) (i : Nat), (∀ m ∈ logs, m.isLog = true) →
      (progressBlocks total i logs).filter Msg.isProgress
        = (List.range logs.length).map (fun k => Msg.progress (i + k) total) := by
  intro logs
  induction logs with
  | nil => intro i _; rfl
  | cons l ls ih =>
    intro i h
    have hl : l.isLog = true := h l (List.mem_cons_self l ls)
    have hnp : l.isProgress = false := by
      cases l <;> simp_all [Msg.isLog, Msg.isProgress]
    rw [progressBlocks]
    rw [List.filter_cons_of_pos (by rfl), List.filter_cons_of_neg (by simp [hnp])]
    rw [ih (i + 1) (fun m hm => h m (List.mem_cons_of_mem l hm))]
    rw [List.length_cons, List.range_succ_eq_map]
    rw [List.map_cons, List.map_map]
    congr 1
    refine List.map_congr_left fun a _ => ?_
    simp only [Function.comp_apply]
    congr 1
    omega

/-- The concrete three-file world of the spec's scenario: a.png, b.png,
c.png under /src, destination /dst, and the codec made to fail
deterministically on b.png (its decode raises). -/
def scenarioWorld : World :=
  ⟨[(["src"], false), (["dst"], false), (["src", "a.png"], true),
    (["src", "b.png"], true), (["src", "c.png"], true)],
   [], [["src", "b.png"]], []⟩

def scenarioFiles : List (List String) :=
  [["src", "a.png"], ["src", "b.png"], ["src", "c.png"]]

/-- C8: for every fault-free batch over N files the emitted trace is one
Progress(i, N) immediately before each file i's log line (so Progress for
file i precedes its conversion attempt), hence exactly N Progress messages
with current 1..N in order and total N; and in the spec's 3-file scenario
with file 2's codec failing, the batch reports successCount 2, errorCount
1, exactly 3 Progress messages with current 1,2,3 and one final
Complete. -/
theorem worker_progress_trace (w : World) (src dst : List String)
    (files : List (List String)) :
    (∃ logs : List Msg, logs.length = files.length ∧
        (∀ m ∈ logs, m.isLog = true) ∧
        (run_conversion_worker w [] src dst files).msgs
          = progressBlocks files.length 1 logs
            ++ [Msg.complete (run_conversion_worker w [] src dst files).success
                (run_conversion_worker w [] src dst files).error]) ∧
      (run_conversion_worker w [] src dst files).msgs.filter Msg.isProgress
        = (List.range files.length).map (fun k => Msg.progress (1 + k) files.length) ∧
      ((run_conversion_worker scenarioWorld [] ["src"] ["dst"] scenarioFiles).msgs
          = [Msg.progress 1 3, Msg.log (okLine 1 3 "a.png"),
             Msg.progress 2 3, Msg.log (failLine 2 3 "b.png"),
             Msg.progress 3 3, Msg.log (okLine 3 3 "c.png"),
             Msg.complete 2 1] ∧
        (run_conversion_worker scenarioWorld [] ["src"] ["dst"] scenarioFiles).success = 2 ∧
        (run_conversion_worker scenarioWorld [] ["src"] ["dst"] scenarioFiles).error = 1) := by
  obtain ⟨logs, hlen, hlog, hmsgs⟩ :=
    workerLoop_nofault_shape src dst files.length files 1 0 0 w []
  refine ⟨⟨logs, hlen, hlog, ?_⟩, ?_, ?_⟩
  · show (workerLoop [] src dst files.length files 1 0 0 w []).msgs ++ _ = _
    rw [hmsgs, List.nil_append]
    rfl
  · show ((workerLoop [] src dst files.length files 1 0 0 w []).msgs ++ _).filter _ = _
    rw [hmsgs, List.nil_append, List.filter_append]
    rw [progressBlocks_filter files.length logs 1 hlog, hlen]
    simp [Msg.isProgress]
  · refine ⟨?_, by decide, by decide⟩
    decide

/-
  UI Controller: the convert-click handler (identical guard logic in
  src/main.py and src/ui/app.py).  spawned counts worker threads started;
  logLines are the directly appended status lines.
-/

structure Controller where
  source_dir : Option (List String)
  dest_dir : Option (List String)
  png_files : List (List String)
  is_converting : Bool
  spawned : Nat
  logLines : List String
deriving DecidableEq, Repr

def errorSelectLine : String :=
  "Error: Source and destination folders must be selected"

def startingLine (n : Nat) : String :=
  "Starting conversion of " ++ toString n ++ " file(s)..."

/-- _on_convert_click: the validity check comes first (and logs an error
line when it fails), then the isConverting guard, then the spawn. -/
def onConvertClick (c : Controller) : Controller :=
  if c.source_dir.isNone || c.dest_dir.isNone || c.png_files.isEmpty then
    { c with logLines := c.logLines ++ [errorSelectLine] }
  else if c.is_converting then c
  else
    { c with
      is_converting := true
      spawned := c.spawned + 1
      logLines := c.logLines ++ [startingLine c.png_files.length] }

/-- C9 counterexample: a state with isConverting true whose file list is
empty (reachable by retargeting the source folder to a PNG-free directory
mid-conversion, which re-enables the button).  A click is then not a
no-op: the validity branch precedes the guard and appends an error log
line, changing the controller's state. -/
theorem guard_click_counterexample :
    onConvertClick ⟨some ["src"], some ["dst"], [], true, 1, []⟩
      ≠ ⟨some ["src"], some ["dst"], [], true, 1, []⟩ := by decide

/-- C9 (amended): while isConverting is true no click ever spawns a
worker or clears the guard flag, and when both directories are set and
the file list is non-empty the click is a complete no-op (no message, no
state change).  Only the unreachable-through-normal-flow validity failure
appends an error log line. -/
theorem guard_no_second_worker (c : Controller) (h : c.is_converting = true) :
    (onConvertClick c).spawned = c.spawned ∧
      (onConvertClick c).is_converting = true ∧
      (c.source_dir.isSome = true → c.dest_dir.isSome = true →
        c.png_files ≠ [] → onConvertClick c = c) := by
  unfold onConvertClick
  by_cases hv : (c.source_dir.isNone || c.dest_dir.isNone || c.png_files.isEmpty) = true
  · rw [if_pos hv]
    refine ⟨rfl, h, ?_⟩
    intro hs hd hp
    exfalso
    rcases Bool.or_eq_true_iff.mp hv with h1 | h2
    · rcases Bool.or_eq_true_iff.mp h1 with ha | hb
      · rw [Option.isNone_iff_eq_none] at ha
        rw [ha] at hs
        cases hs
      · rw [Option.isNone_iff_eq_none] at hb
        rw [hb] at hd
        cases hd
    · exact hp (List.isEmpty_iff.mp h2)
  · rw [if_neg hv, if_pos h]
    exact ⟨rfl, h, fun _ _ _ => rfl⟩

/-- C9 witness: a busy controller with valid directories and one file is
returned unchanged by a second click. -/
theorem guard_no_second_worker_witness :
    onConvertClick ⟨some ["src"], some ["dst"], [["src", "a.png"]], true, 1, []⟩
      = ⟨some ["src"], some ["dst"], [["src", "a.png"]], true, 1, []⟩ :=
  (guard_no_second_worker ⟨some ["src"], some ["dst"], [["src", "a.png"]], true, 1, []⟩
    rfl).2.2 rfl rfl (by decide)

end PngWebp
